import Mathlib

/-!
Verification of the Assetto Corsa telemetry-analysis repository.

This file shallowly embeds the two core subsystems:
* the track-section segmentation engine
  (`backend/domain/analysis/analyzer.py`: `_detect_track_sections`,
  `_merge_track_sections`, `_analyze_track_sections`),
* the session/lap ingestion state machine
  (`backend/main.py`: `TelemetrySystem`) together with the record-update
  helpers (`backend/database/database.py`).

Python floats are modelled as rationals; the steering angle is stored
already converted to degrees (the source multiplies the radian value by
180/pi, a strictly monotone map, before comparing with the 5.0-degree
threshold, so thresholding the degree value is equivalent).
-/

namespace AssetoCorsa

/-- Section classification: straight or corner. -/
inductive SType where
  | straight
  | corner
deriving DecidableEq, Repr

/-- Corner direction. -/
inductive CDir where
  | left
  | right
deriving DecidableEq, Repr

/-- One telemetry point, restricted to the fields the segmentation and
section-analysis code reads (`g_force_lat`, `steering`, `speed`,
`timestamp`, `brake`, `throttle`, `g_force_long`, `n_tires_out`). -/
structure TSample where
  gLat : ℚ
  steeringDeg : ℚ
  speed : ℚ
  timestamp : ℚ
  brake : ℚ
  throttle : ℚ
  gLong : ℚ
  nTiresOut : ℕ
deriving DecidableEq, Repr

/-- Per-sample classification, from `_detect_track_sections`:
corner iff `abs(g_lat) > 0.15 or abs(steering_deg) > 5.0`. -/
def pointType (p : TSample) : SType :=
  if 15/100 < |p.gLat| ∨ 5 < |p.steeringDeg| then .corner else .straight

/-- Corner direction of a sample: `right` if `g_force_lat > 0` else `left`;
`none` for straight samples (mirrors `new_direction` in the source). -/
def newDirection (p : TSample) : Option CDir :=
  if pointType p = .corner then some (if 0 < p.gLat then .right else .left)
  else none

/-- A raw section dict as built by `_detect_track_sections`.  `direction`
is `none` when the Python dict lacks the `direction` key (which happens for
sections created in the short-run noise branch) or stores `None`. -/
structure RawSection where
  type : SType
  startIdx : ℕ
  endIdx : ℕ
  points : List TSample
  direction : Option CDir
deriving DecidableEq, Repr

/-- Loop state of `_detect_track_sections`: the closed sections plus the
in-flight `current_section` (type, start index, points, stored direction)
and the `current_direction` loop variable, which can differ from the stored
direction because the noise branch rebuilds `current_section` without a
`direction` key while still updating the variable. -/
structure SegState where
  sections : List RawSection
  curType : SType
  curStart : ℕ
  curPoints : List TSample
  curDir : Option CDir
  curDirVar : Option CDir
deriving Repr

/-- Extend the last section of a list with extra points and a new end index
(the `sections[-1]['points'].extend(...)` / `end_idx` update of the noise
branch); on an empty list the points are dropped, exactly as in the source,
which only guards with `if sections:`. -/
def extendLast : List RawSection → List TSample → ℕ → List RawSection
  | [], _, _ => []
  | [s], pts, e => [{ s with points := s.points ++ pts, endIdx := e }]
  | s :: t :: rest, pts, e => s :: extendLast (t :: rest) pts e

/-- One iteration of the sample loop of `_detect_track_sections` for the
sample at index `i` (the `current_section['type'] is None` first-sample
branch is handled by the caller's initial state). -/
def segStep (st : SegState) (i : ℕ) (p : TSample) : SegState :=
  let pt := pointType p
  let nd := newDirection p
  if pt = st.curType then
    if pt = .corner ∧ nd ≠ st.curDirVar ∧ nd ≠ none ∧ st.curDirVar ≠ none then
      -- direction flip: close the current corner (length ≥ 1 check) and
      -- open a new corner section with the new direction
      { sections :=
          if 1 ≤ st.curPoints.length then
            st.sections ++ [{ type := st.curType, startIdx := st.curStart,
                              endIdx := i - 1, points := st.curPoints,
                              direction := st.curDir }]
          else st.sections
        curType := pt, curStart := i, curPoints := [p]
        curDir := nd, curDirVar := nd }
    else
      { st with curPoints := st.curPoints ++ [p] }
  else
    if 5 ≤ st.curPoints.length then
      -- long enough: close it and start a new section of the new type
      { sections :=
          st.sections ++ [{ type := st.curType, startIdx := st.curStart,
                            endIdx := i - 1, points := st.curPoints,
                            direction := st.curDir }]
        curType := pt, curStart := i, curPoints := [p]
        curDir := nd, curDirVar := nd }
    else
      -- too short: fold the points into the previous closed section if one
      -- exists (otherwise they are dropped); the replacement dict has no
      -- `direction` key, hence `curDir := none`
      { sections := extendLast st.sections st.curPoints (i - 1)
        curType := pt, curStart := i, curPoints := [p]
        curDir := none, curDirVar := nd }

/-- The indexed sample loop. -/
def segLoop (st : SegState) (i : ℕ) : List TSample → SegState
  | [] => st
  | p :: rest => segLoop (segStep st i p) (i + 1) rest

/-- Close the final in-flight section (`n` is the input length): append it
when it has ≥ 5 points, otherwise merge its tail into the previous section
when one exists (`elif sections:`), otherwise drop it. -/
def finishSeg (st : SegState) (n : ℕ) : List RawSection :=
  if 5 ≤ st.curPoints.length then
    st.sections ++ [{ type := st.curType, startIdx := st.curStart,
                      endIdx := n - 1, points := st.curPoints,
                      direction := st.curDir }]
  else extendLast st.sections st.curPoints (n - 1)

/-- The merge decision of `_merge_track_sections` for `next` against the
running `current_cluster`, with `lookahead` the section after `next` in the
original list (if any). -/
def shouldMerge (cluster next : RawSection) (lookahead : Option RawSection) : Bool :=
  if next.type = cluster.type ∧ next.direction = cluster.direction then
    true
  else if cluster.type = .corner ∧ next.type = .straight then
    if next.points.length < 15 then
      match lookahead with
      | some nn => decide (nn.type = .corner ∧ nn.direction = cluster.direction)
      | none => false
    else false
  else if cluster.type = .straight ∧ next.type = .corner then
    if next.points.length < 10 then
      match lookahead with
      | some nn => decide (nn.type = .straight)
      | none => false
    else false
  else false

/-- The fold of `_merge_track_sections`: absorb the next section into the
cluster when `shouldMerge` says so (keeping the cluster's type/direction),
otherwise close the cluster and continue from the next section. -/
def mergeLoop (cluster : RawSection) : List RawSection → List RawSection
  | [] => [cluster]
  | next :: rest =>
    if shouldMerge cluster next rest.head? then
      mergeLoop { cluster with points := cluster.points ++ next.points,
                               endIdx := next.endIdx } rest
    else
      cluster :: mergeLoop next rest

/-- `_merge_track_sections`. -/
def mergeTrackSections : List RawSection → List RawSection
  | [] => []
  | s :: rest => mergeLoop s rest

/-- `_detect_track_sections`: raw grouping then the noise-merge pass. -/
def detectTrackSections : List TSample → List RawSection
  | [] => []
  | p :: rest =>
    let st0 : SegState :=
      { sections := [], curType := pointType p, curStart := 0,
        curPoints := [p], curDir := newDirection p,
        curDirVar := newDirection p }
    mergeTrackSections (finishSeg (segLoop st0 1 rest) (p :: rest).length)

/-- Concatenation of the point lists of a section list. -/
def concatPoints (l : List RawSection) : List TSample :=
  l.foldr (fun s acc => s.points ++ acc) []

/-- Total point count of a section list. -/
def sectionsPointCount (l : List RawSection) : ℕ :=
  (l.map (fun s => s.points.length)).sum

/-- `coversB a b l` holds when the sections of `l` tile the index interval
`[a, b)` in order: each section starts where the previous one ended plus
one, its end index matches its point count, and the last one ends at
`b - 1`. -/
def coversB : ℕ → ℕ → List RawSection → Bool
  | a, b, [] => a == b
  | a, b, s :: rest =>
    (s.startIdx == a) && (s.endIdx + 1 == a + s.points.length) &&
      (0 < s.points.length) && coversB (s.endIdx + 1) b rest

/-- Loop invariant of the raw grouping pass over a processed prefix: the
closed sections plus the in-flight points hold exactly the prefix, the
closed sections tile `[0, curStart)`, the in-flight section continues to
the prefix's end and is non-empty, and while no section has been closed the
whole prefix still belongs to the first sample's classification run. -/
def SegInv (processed : List TSample) (t0 : SType) (st : SegState) : Prop :=
  concatPoints st.sections ++ st.curPoints = processed ∧
  coversB 0 st.curStart st.sections = true ∧
  st.curStart + st.curPoints.length = processed.length ∧
  st.curPoints ≠ [] ∧
  (st.sections = [] → st.curStart = 0 ∧ st.curType = t0 ∧
    ∀ q ∈ processed, pointType q = t0)

/-! ### Section analyzer (`_analyze_track_sections`) -/

/-- Python `round(x, 1)`: round to one decimal place.  The source rounds
IEEE doubles (ties to even); over the rationals used here we round ties
half-up, which agrees with the source except at exact `.x5` ties, none of
which arise in the properties below. -/
def round1 (q : ℚ) : ℚ := (round (q * 10) : ℤ) / 10

/-- Minimum of a speed list, `min(speeds) if speeds else 0`. -/
def minSpeed : List ℚ → ℚ
  | [] => 0
  | h :: t => t.foldl min h

/-- Maximum of a list of naturals, `max(...) if ... else 0`. -/
def maxTiresOut (points : List TSample) : ℕ :=
  (points.map (fun p => p.nTiresOut)).foldr max 0

/-- Section validity: `max(n_tires_out) <= 2` over the section's points. -/
def sectionIsValid (points : List TSample) : Bool :=
  maxTiresOut points ≤ 2

/-- The recommended-entry-speed computation for an invalid corner, from
`_analyze_track_sections`: use `apex * 1.15` when `0 < min < entry`, else
fall back to `entry * 0.85`, then clamp any result `>= entry` down to
`entry * 0.85`; every stored value passes through `round(_, 1)`. -/
def computeRecommendedSpeed (entrySpeed minCornerSpeed : ℚ) : ℚ :=
  let r :=
    if 0 < minCornerSpeed ∧ minCornerSpeed < entrySpeed then
      round1 (minCornerSpeed * (115/100))
    else
      round1 (entrySpeed * (85/100))
  if entrySpeed ≤ r then round1 (entrySpeed * (85/100)) else r

/-- The `recommended_speed` field produced for a section: set only when the
section is an invalid corner, using the first speed as entry speed and the
minimum speed as apex speed. -/
def analyzeRecommendedSpeed (sec : RawSection) : Option ℚ :=
  let speeds := sec.points.map (fun p => p.speed)
  if sectionIsValid sec.points = false ∧ sec.type = .corner then
    some (computeRecommendedSpeed (speeds.headD 0) (minSpeed speeds))
  else none

/-! ### Record updates (`database.py`) -/

/-- A `personal_records` row (the fields touched by
`update_personal_records`). -/
structure PersonalRecord where
  bestLapTime : ℚ
  bestSector1 : Option ℚ
  bestSector2 : Option ℚ
  bestSector3 : Option ℚ
  sessionId : ℕ
deriving DecidableEq, Repr

/-- Which records a call reported as broken. -/
structure RecordsBroken where
  lap : Bool
  sector1 : Bool
  sector2 : Bool
  sector3 : Bool
deriving DecidableEq, Repr

/-- Python truthiness of an optional float: `None` and `0.0` are falsy. -/
def truthyQ : Option ℚ → Bool
  | none => false
  | some q => q ≠ 0

/-- One sector update of `update_personal_records`:
`if sector and (not current_best or sector < current_best): update`. -/
def updateSector (new cur : Option ℚ) : Option ℚ × Bool :=
  match new with
  | none => (cur, false)
  | some nv =>
    if nv ≠ 0 ∧ (truthyQ cur = false ∨ nv < cur.getD 0) then (some nv, true)
    else (cur, false)

/-- `Database.update_personal_records` for one track/vehicle key, modelled
on the stored row for that key (`none` when the table has no row): a
missing row is inserted as-is; an existing row's best lap time is replaced
only when the new time is strictly lower, and each sector best only when
the new sector time is truthy and strictly beats a truthy stored value. -/
def update_personal_records (current : Option PersonalRecord) (sessionId : ℕ)
    (lapTime : ℚ) (s1 s2 s3 : Option ℚ) : PersonalRecord × RecordsBroken :=
  match current with
  | none =>
    ({ bestLapTime := lapTime, bestSector1 := s1, bestSector2 := s2,
       bestSector3 := s3, sessionId := sessionId },
     { lap := true, sector1 := true, sector2 := true, sector3 := true })
  | some cur =>
    let lapBeat := lapTime < cur.bestLapTime
    let u1 := updateSector s1 cur.bestSector1
    let u2 := updateSector s2 cur.bestSector2
    let u3 := updateSector s3 cur.bestSector3
    ({ bestLapTime := if lapBeat then lapTime else cur.bestLapTime
       bestSector1 := u1.1, bestSector2 := u2.1, bestSector3 := u3.1
       sessionId := if lapBeat then sessionId else cur.sessionId },
     { lap := lapBeat, sector1 := u1.2, sector2 := u2.2, sector3 := u3.2 })

/-- A `section_records` row. -/
structure SectionRecord where
  bestTime : ℚ
  bestAvgSpeed : Option ℚ
  bestMaxSpeed : Option ℚ
  sessionId : ℕ
deriving DecidableEq, Repr

/-- `Database.update_section_records` for one section id, modelled on that
id's stored row: insert when absent, replace only on a strictly lower
time. The returned flag is membership in `sections_improved`. -/
def update_section_record (current : Option SectionRecord) (sessionId : ℕ)
    (time : ℚ) (avgSpeed maxSpeed : Option ℚ) : SectionRecord × Bool :=
  match current with
  | none =>
    ({ bestTime := time, bestAvgSpeed := avgSpeed, bestMaxSpeed := maxSpeed,
       sessionId := sessionId }, true)
  | some cur =>
    if time < cur.bestTime then
      ({ bestTime := time, bestAvgSpeed := avgSpeed,
         bestMaxSpeed := maxSpeed, sessionId := sessionId }, true)
    else (cur, false)

/-! ### Session/lap ingestion state machine (`backend/main.py`)

The `TelemetrySystem` fields and handlers are embedded as a pure state
machine: every handler takes the tracker state, the store contents, and the
latest reader snapshot and returns the updated state and store plus the
broadcast events of that call.  The force-feedback, pedal, and steering
(`volante`) side channels are omitted: they write to separate tables and
never influence the tracker fields, the lap rows, or the events below. -/

/-- The reader snapshot fields consumed by the tracker (speeds in km/h,
times in milliseconds as reported by Assetto Corsa). -/
structure Snapshot where
  trackName : String
  carName : String
  sessionType : String
  sessionIndex : ℤ
  speed : ℚ
  completedLaps : ℤ
  isValidLap : Bool
  lastLapTime : ℚ
  bestLapTime : ℚ
  currentSectorIndex : ℤ
  lastSectorTime : ℚ
  timestamp : ℚ
deriving DecidableEq, Repr

/-- A `laps` table row. -/
structure LapRow where
  id : ℕ
  sessionId : Option ℕ
  lapNumber : ℤ
  lapTime : ℚ
  isValid : Bool
  maxSpeed : ℚ
  avgSpeed : ℚ
  sector1 : Option ℚ
  sector2 : Option ℚ
  sector3 : Option ℚ
deriving DecidableEq, Repr

/-- A `sessions` table row (fields the tracker touches). -/
structure SessionRow where
  id : ℕ
  trackName : String
  carName : String
  sessionType : String
  ended : Bool
  totalLaps : Option ℤ
  bestLapTime : Option ℚ
deriving DecidableEq, Repr

/-- The store: sessions, laps, and telemetry rows tagged by lap id.  Of a
telemetry row only the fields the tracker later reads back are kept (the
lap-statistics query uses only `speed`). -/
structure DB where
  sessions : List SessionRow
  laps : List LapRow
  telemetry : List (ℕ × Snapshot)
  nextSessionId : ℕ
  nextLapId : ℕ
deriving DecidableEq, Repr

/-- The empty store. -/
def DB.empty : DB := ⟨[], [], [], 1, 1⟩

/-- `TelemetrySystem` mutable state (`__init__`). -/
structure TrackerState where
  currentSessionId : Option ℕ
  currentLapId : Option ℕ
  currentLapNumber : ℤ
  lapTelemetryBuffer : List (ℕ × Snapshot)
  inRace : Bool
  lastCompletedLap : ℤ
  wasConnected : Bool
  carHasMoved : Bool
  ignoreFirstLap : Bool
  lastSectorIndex : ℤ
  sector1Time : Option ℚ
  sector2Time : Option ℚ
  sector3Time : Option ℚ
  currentLapValid : Bool
  lastSessionIndex : ℤ
  currentSessionType : String
deriving DecidableEq, Repr

/-- Initial tracker state, as set in `TelemetrySystem.__init__`. -/
def TrackerState.init : TrackerState :=
  { currentSessionId := none, currentLapId := none, currentLapNumber := 0
    lapTelemetryBuffer := [], inRace := false, lastCompletedLap := 0
    wasConnected := false, carHasMoved := false, ignoreFirstLap := false
    lastSectorIndex := -1, sector1Time := none, sector2Time := none
    sector3Time := none, currentLapValid := true, lastSessionIndex := -1
    currentSessionType := "" }

/-- The analysis payload carried by the `race_end` broadcast. -/
structure AnalysisPayload where
  recommendations : List String
  analysisComplete : Bool
deriving DecidableEq, Repr

/-- Broadcast events emitted by the tracker. -/
inductive Event where
  | acConnected
  | acDisconnected
  | raceStart (sessionId : ℕ)
  | telemetry
  | lapComplete (lapNumber : ℤ) (lapTime : ℚ) (isValid : Bool)
  | raceEnd (sessionId : ℕ) (analysis : AnalysisPayload)
deriving DecidableEq, Repr

/-- `Database.create_session`. -/
def DB.createSession (db : DB) (track car kind : String) : DB × ℕ :=
  ({ db with
      sessions := db.sessions ++
        [{ id := db.nextSessionId, trackName := track, carName := car,
           sessionType := kind, ended := false, totalLaps := none,
           bestLapTime := none }]
      nextSessionId := db.nextSessionId + 1 },
   db.nextSessionId)

/-- `Database.create_lap`. -/
def DB.createLap (db : DB) (sessionId : Option ℕ) (lapNumber : ℤ)
    (lapTime : ℚ) (isValid : Bool) : DB × ℕ :=
  ({ db with
      laps := db.laps ++
        [{ id := db.nextLapId, sessionId := sessionId, lapNumber := lapNumber,
           lapTime := lapTime, isValid := isValid, maxSpeed := 0,
           avgSpeed := 0, sector1 := none, sector2 := none, sector3 := none }]
      nextLapId := db.nextLapId + 1 },
   db.nextLapId)

/-- `Database.insert_telemetry_batch`: append the buffered rows. -/
def DB.insertTelemetryBatch (db : DB) (batch : List (ℕ × Snapshot)) : DB :=
  { db with telemetry := db.telemetry ++ batch }

/-- `Database.get_lap_telemetry`: the rows of one lap. -/
def DB.getLapTelemetry (db : DB) (lapId : ℕ) : List Snapshot :=
  (db.telemetry.filter (fun r => r.1 == lapId)).map (fun r => r.2)

/-- The raw `UPDATE laps SET ...` of `on_lap_complete`. -/
def DB.updateLapRow (db : DB) (lapId : ℕ) (f : LapRow → LapRow) : DB :=
  { db with laps := db.laps.map (fun r => if r.id == lapId then f r else r) }

/-- `Database.update_session` as called on lap completion (total laps and
best lap time). -/
def DB.updateSessionStats (db : DB) (sessionId : Option ℕ) (totalLaps : ℤ)
    (best : Option ℚ) : DB :=
  { db with sessions := db.sessions.map (fun r =>
      if some r.id == sessionId then
        { r with totalLaps := some totalLaps, bestLapTime := best }
      else r) }

/-- `Database.update_session` as called at race end (`end_time`). -/
def DB.updateSessionEnd (db : DB) (sessionId : ℕ) : DB :=
  { db with sessions := db.sessions.map (fun r =>
      if r.id == sessionId then { r with ended := true } else r) }

/-- ASCII lower-casing of one character (`str.lower()` on the session-type
names used by the simulator). -/
def lowerChar (c : Char) : Char :=
  if 65 ≤ c.toNat ∧ c.toNat ≤ 90 then Char.ofNat (c.toNat + 32) else c

/-- Does the pattern occur at the head of the character list? -/
def patAtHead : List Char → List Char → Bool
  | [], _ => true
  | _ :: _, [] => false
  | p :: ps, c :: cs => p == c && patAtHead ps cs

/-- Does the pattern occur anywhere in the character list? -/
def patInList (pat : List Char) : List Char → Bool
  | [] => pat.isEmpty
  | c :: cs => patAtHead pat (c :: cs) || patInList pat cs

/-- Substring test on lower-cased text, for
`'practice' in session_type.lower()`. -/
def strContains (s pat : String) : Bool :=
  patInList pat.data (s.data.map lowerChar)

/-- `TelemetrySystem.on_race_start`.  Sets `in_race` before reading the
snapshot (so a missing snapshot still leaves the tracker "in race" with no
session created, as in the source).  Practice sessions start the lap
counter at `-1` and arm `ignore_first_lap`.  The track-layout suffix
concatenation (`track@config`) is presentation only and elided; the track
name is stored as reported.  Note that `current_lap_valid` is *not* reset
here. -/
def onRaceStart (s : TrackerState) (db : DB) (snapOpt : Option Snapshot) :
    TrackerState × DB × List Event :=
  let s := { s with inRace := true }
  match snapOpt with
  | none => (s, db, [])
  | some snap =>
    let cs := db.createSession snap.trackName snap.carName snap.sessionType
    let db := cs.1
    let sid := cs.2
    let isPractice :=
      strContains snap.sessionType "practice" ||
        strContains snap.sessionType "practica"
    let s :=
      { s with
          currentSessionId := some sid
          currentLapNumber := if isPractice then -1 else 0
          lastCompletedLap := -1
          lapTelemetryBuffer := []
          carHasMoved := false
          ignoreFirstLap := isPractice
          lastSectorIndex := -1
          sector1Time := none, sector2Time := none, sector3Time := none }
    let cl := db.createLap (some sid) 1 0 true
    ({ s with currentLapId := some cl.2 }, cl.1, [Event.raceStart sid])

/-- Flush the telemetry buffer when non-empty (`if self.lap_telemetry_buffer:
insert; clear`). -/
def flushBuffer (s : TrackerState) (db : DB) : TrackerState × DB :=
  if s.lapTelemetryBuffer.isEmpty then (s, db)
  else ({ s with lapTelemetryBuffer := [] },
        db.insertTelemetryBatch s.lapTelemetryBuffer)

/-- `TelemetrySystem.on_lap_complete`.  The practice first-lap branch
discards the buffer and clears only the ignore flag; the normal branch
flushes, finalizes the current lap row (only when the reported lap time is
positive), resets the validity latch and sector state, creates the next
provisional lap row, updates the session stats, and broadcasts
`lap_complete` (reading `current_lap_valid` *after* its reset, as the
source does). -/
def onLapComplete (s : TrackerState) (db : DB) (snap : Snapshot) :
    TrackerState × DB × List Event :=
  if s.ignoreFirstLap ∧ s.currentLapNumber = -1 then
    ({ s with ignoreFirstLap := false, lapTelemetryBuffer := [],
              lastCompletedLap := snap.completedLaps }, db, [])
  else
    let fl := flushBuffer s db
    let s := fl.1
    let db := fl.2
    let db :=
      match s.currentLapId with
      | none => db
      | some lid =>
        let lapTel : List Snapshot := db.getLapTelemetry lid
        let speeds : List ℚ := lapTel.map (fun r : Snapshot => r.speed)
        let maxSpeed := match speeds with | [] => 0 | h :: t => t.foldl max h
        let avgSpeed :=
          match speeds with | [] => 0 | _ :: _ => speeds.sum / speeds.length
        let lapTime := snap.lastLapTime / 1000
        if 0 < lapTime then
          db.updateLapRow lid (fun r =>
            { r with lapTime := lapTime, maxSpeed := maxSpeed,
                     avgSpeed := avgSpeed, isValid := s.currentLapValid,
                     sector1 := s.sector1Time, sector2 := s.sector2Time,
                     sector3 := s.sector3Time })
        else db
    let s := { s with currentLapValid := true,
                      currentLapNumber := s.currentLapNumber + 1 }
    let cl := db.createLap s.currentSessionId (s.currentLapNumber + 1) 0 true
    let s := { s with currentLapId := some cl.2,
                      sector1Time := none, sector2Time := none,
                      sector3Time := none, lastSectorIndex := -1 }
    let db := cl.1.updateSessionStats s.currentSessionId (s.currentLapNumber + 1)
      (if 0 < snap.bestLapTime then some (snap.bestLapTime / 1000) else none)
    (s, db,
     [Event.lapComplete s.currentLapNumber (snap.lastLapTime / 1000)
        s.currentLapValid])

/-- Record a completed sector time (`self.sector_times[n] = t/1000`). -/
def setSectorTime (s : TrackerState) (n : ℤ) (t : ℚ) : TrackerState :=
  if n = 1 then { s with sector1Time := some t }
  else if n = 2 then { s with sector2Time := some t }
  else if n = 3 then { s with sector3Time := some t }
  else s

/-- The sector-boundary step of `stream_telemetry`: on a sector-index
change (with a previously seen sector), record the just-finished sector's
time when it is sector 1/2/3 with a positive duration, then remember the
new sector index. -/
def sectorUpdate (s : TrackerState) (snap : Snapshot) : TrackerState :=
  let s :=
    if snap.currentSectorIndex ≠ s.lastSectorIndex ∧ 0 ≤ s.lastSectorIndex then
      let sectorNumber := s.lastSectorIndex + 1
      if (sectorNumber = 1 ∨ sectorNumber = 2 ∨ sectorNumber = 3) ∧
          0 < snap.lastSectorTime then
        setSectorTime s sectorNumber (snap.lastSectorTime / 1000)
      else s
    else s
  { s with lastSectorIndex := snap.currentSectorIndex }

/-- The buffering step of `stream_telemetry`: while a lap row is active,
append the enriched sample to the write-behind buffer and flush it to the
store once it holds 50 samples. -/
def bufferAppend (s : TrackerState) (db : DB) (snap : Snapshot) :
    TrackerState × DB :=
  match s.currentLapId with
  | none => (s, db)
  | some lid =>
    let s := { s with lapTelemetryBuffer := s.lapTelemetryBuffer ++ [(lid, snap)] }
    if 50 ≤ s.lapTelemetryBuffer.length then
      ({ s with lapTelemetryBuffer := [] },
       db.insertTelemetryBatch s.lapTelemetryBuffer)
    else (s, db)

/-- The post-movement body of `stream_telemetry`: sector bookkeeping,
lap-completion detection, the validity latch (checked after
`on_lap_complete`, so the boundary sample's flag applies to the new lap),
buffering, and the live broadcast. -/
def streamAfterMove (s : TrackerState) (db : DB) (snap : Snapshot) :
    TrackerState × DB × List Event :=
  let s := sectorUpdate s snap
  let lapRes :=
    if s.lastCompletedLap < snap.completedLaps then onLapComplete s db snap
    else (s, db, [])
  let s := { lapRes.1 with lastCompletedLap := snap.completedLaps }
  let s := if snap.isValidLap = false then { s with currentLapValid := false }
           else s
  let buf := bufferAppend s lapRes.2.1 snap
  (buf.1, buf.2, lapRes.2.2 ++ [Event.telemetry])

/-- The movement-detection step of `stream_telemetry`: latch
`car_has_moved` once the speed exceeds 5. -/
def movedState (s : TrackerState) (snap : Snapshot) : TrackerState :=
  if ¬s.carHasMoved ∧ 5 < snap.speed then { s with carHasMoved := true } else s

/-- `TelemetrySystem.stream_telemetry`: movement gating followed by the
post-movement body; before movement the sample is only broadcast. -/
def streamTelemetry (s : TrackerState) (db : DB) (snapOpt : Option Snapshot) :
    TrackerState × DB × List Event :=
  match snapOpt with
  | none => (s, db, [])
  | some snap =>
    let s := movedState s snap
    if ¬s.carHasMoved then (s, db, [Event.telemetry])
    else streamAfterMove s db snap

/-- `TelemetrySystem.on_race_end`.  The analysis call is modelled as a
fallible function; the source's `try/except` around `analyze_session`
becomes the `Except` match, producing the degraded payload on failure.
The session-end update, the single `race_end` broadcast, and the state
reset follow the source; the in-progress provisional lap row is *not*
finalized here. -/
def onRaceEnd (s : TrackerState) (db : DB)
    (analyze : ℕ → Except String AnalysisPayload) :
    TrackerState × DB × List Event :=
  let s := { s with inRace := false }
  let fl := flushBuffer s db
  let s := fl.1
  let db := fl.2
  match s.currentSessionId with
  | none =>
    ({ s with currentSessionId := none, currentLapId := none,
              currentLapNumber := 0 }, db, [])
  | some sid =>
    let db := db.updateSessionEnd sid
    let analysis :=
      match analyze sid with
      | .ok a => a
      | .error e =>
        { recommendations := ["Error durante el análisis: " ++ e],
          analysisComplete := false }
    ({ s with currentSessionId := none, currentLapId := none,
              currentLapNumber := 0 }, db,
     [Event.raceEnd sid analysis])

/-- One iteration of `TelemetrySystem.monitor_and_stream`, parametrized by
the reader status of that tick (`connected`, the snapshot, and
`is_in_race()`).  Handles the connection broadcasts, session-change
detection (implicit session end followed in the same tick by a fresh
`on_race_start`), and the race-state dispatch. -/
def monitorStep (analyze : ℕ → Except String AnalysisPayload)
    (connected : Bool) (snapOpt : Option Snapshot) (isInRace : Bool)
    (s : TrackerState) (db : DB) : TrackerState × DB × List Event :=
  if connected then
    let c0 :=
      if ¬s.wasConnected then ({ s with wasConnected := true }, [Event.acConnected])
      else (s, [])
    let s := c0.1
    let evs0 := c0.2
    let c1 :=
      match snapOpt with
      | none => (s, db, [])
      | some snap =>
        if s.inRace ∧ (snap.sessionIndex ≠ s.lastSessionIndex ∨
            snap.sessionType ≠ s.currentSessionType) then
          let re := onRaceEnd s db analyze
          ({ re.1 with inRace := false, lastSessionIndex := snap.sessionIndex,
                       currentSessionType := snap.sessionType },
           re.2.1, re.2.2)
        else
          ({ s with lastSessionIndex := snap.sessionIndex,
                    currentSessionType := snap.sessionType }, db, [])
    let s := c1.1
    let db := c1.2.1
    let evs1 := c1.2.2
    if isInRace then
      let c2 := if ¬s.inRace then onRaceStart s db snapOpt else (s, db, [])
      let c3 := streamTelemetry c2.1 c2.2.1 snapOpt
      (c3.1, c3.2.1, evs0 ++ evs1 ++ c2.2.2 ++ c3.2.2)
    else
      if s.inRace then
        let re := onRaceEnd s db analyze
        (re.1, re.2.1, evs0 ++ evs1 ++ re.2.2)
      else (s, db, evs0 ++ evs1)
  else
    if s.wasConnected then
      let s := { s with wasConnected := false }
      if s.inRace then
        let re := onRaceEnd s db analyze
        (re.1, re.2.1, Event.acDisconnected :: re.2.2)
      else (s, db, [Event.acDisconnected])
    else (s, db, [])

/-- Does an event open or close a session? -/
def isSessionBoundary : Event → Bool
  | .raceStart _ => true
  | .raceEnd _ _ => true
  | _ => false

/-! ### Concrete fixtures used by witnesses and counterexamples -/

/-- A straight-classified sample (no lateral g, no steering). -/
def straightSample : TSample :=
  { gLat := 0, steeringDeg := 0, speed := 50, timestamp := 0, brake := 0,
    throttle := 1, gLong := 0, nTiresOut := 0 }

/-- A right-corner sample (1 g lateral). -/
def cornerRightSample : TSample :=
  { gLat := 1, steeringDeg := 0, speed := 40, timestamp := 0, brake := 0,
    throttle := 1, gLong := 0, nTiresOut := 0 }

/-- A left-corner sample (-1 g lateral). -/
def cornerLeftSample : TSample :=
  { gLat := -1, steeringDeg := 0, speed := 40, timestamp := 0, brake := 0,
    throttle := 1, gLong := 0, nTiresOut := 0 }

/-- A right-corner section of five samples starting at index 0. -/
def fixSecCornerA : RawSection :=
  { type := .corner, startIdx := 0, endIdx := 4,
    points := List.replicate 5 cornerRightSample, direction := some .right }

/-- A straight section of six samples (short for the corner lookahead). -/
def fixSecStraight : RawSection :=
  { type := .straight, startIdx := 5, endIdx := 10,
    points := List.replicate 6 straightSample, direction := none }

/-- A second right-corner section of five samples. -/
def fixSecCornerB : RawSection :=
  { type := .corner, startIdx := 11, endIdx := 15,
    points := List.replicate 5 cornerRightSample, direction := some .right }

/-- A left-corner section of five samples. -/
def fixSecCornerL : RawSection :=
  { type := .corner, startIdx := 11, endIdx := 15,
    points := List.replicate 5 cornerLeftSample, direction := some .left }

/-- An off-track corner section whose entry speed is 120 and whose minimum
speed is 80.2 (three tires out at the apex). -/
def fixOffTrackSection : RawSection :=
  { type := .corner, startIdx := 0, endIdx := 1,
    points :=
      [{ gLat := 1, steeringDeg := 0, speed := 120, timestamp := 0,
         brake := 0, throttle := 1, gLong := 0, nTiresOut := 0 },
       { gLat := 1, steeringDeg := 0, speed := 802/10, timestamp := 1,
         brake := 1, throttle := 0, gLong := 0, nTiresOut := 3 }],
    direction := some .right }

/-- An analysis stub that always succeeds with an empty report. -/
def okAnalyze : ℕ → Except String AnalysisPayload := fun _ => .ok ⟨[], true⟩

/-- A race snapshot: session 0, car moving, lap counter 0, valid flag set. -/
def snapRace : Snapshot :=
  { trackName := "monza", carName := "gt3", sessionType := "Race",
    sessionIndex := 0, speed := 10, completedLaps := 0, isValidLap := true,
    lastLapTime := 0, bestLapTime := 0, currentSectorIndex := 0,
    lastSectorTime := 0, timestamp := 0 }

/-- The same session, but the source's raw valid flag has dropped. -/
def snapInvalid : Snapshot := { snapRace with isValidLap := false, timestamp := 1 }

/-- A restarted session (new session index), raw flag valid again, with a
stale 90 s `last_lap_time`. -/
def snapNewSession : Snapshot :=
  { snapRace with sessionIndex := 1, lastLapTime := 90000, timestamp := 2 }

/-- Monitor tick 1 of the validity-leak run: race starts, car moves, the
immediate lap-counter edge completes provisional lap 1 of session 1. -/
def leakRun1 : TrackerState × DB × List Event :=
  monitorStep okAnalyze true (some snapRace) true TrackerState.init DB.empty

/-- Tick 2: a sample with the raw valid flag false latches
`current_lap_valid := false`. -/
def leakRun2 : TrackerState × DB × List Event :=
  monitorStep okAnalyze true (some snapInvalid) true leakRun1.1 leakRun1.2.1

/-- Tick 3: the session index changes; session 1 ends, session 2 starts,
and its first lap-counter edge finalizes session 2's provisional lap row.
Every sample processed while session 2 was active had `is_valid_lap = true`. -/
def leakRun3 : TrackerState × DB × List Event :=
  monitorStep okAnalyze true (some snapNewSession) true leakRun2.1 leakRun2.2.1

/-- A stationary snapshot of session index 0 (car never moves). -/
def snapIdle : Snapshot := { snapRace with speed := 0 }

/-- A stationary snapshot after a session restart (index 5). -/
def snapIdleRestart : Snapshot := { snapRace with speed := 0, sessionIndex := 5 }

/-- Restart run, tick 1: the session starts (one provisional lap row). -/
def restartRun1 : TrackerState × DB × List Event :=
  monitorStep okAnalyze true (some snapIdle) true TrackerState.init DB.empty

/-- Restart run, tick 2: the session index changes mid-stream. -/
def restartRun2 : TrackerState × DB × List Event :=
  monitorStep okAnalyze true (some snapIdleRestart) true restartRun1.1 restartRun1.2.1

/-- A tracker immediately after a practice race start: first-lap discard
armed, counter at -1 (the race-start lap row is `practiceRow`). -/
def practiceDiscardState : TrackerState :=
  { TrackerState.init with
      ignoreFirstLap := true
      currentLapNumber := -1
      currentLapId := some 1 }

/-- The tracker after the discard: flag cleared, counter still -1, still
pointing at the race-start lap row. -/
def practicePostDiscardState : TrackerState :=
  { TrackerState.init with
      ignoreFirstLap := false
      currentLapNumber := -1
      currentLapId := some 1 }

/-- A store holding only the provisional race-start lap row (display lap
number 1, zero time). -/
def practiceDb : DB := (DB.empty.createLap (some 1) 1 0 true).1

/-- The provisional race-start lap row itself. -/
def practiceRow : LapRow :=
  ⟨1, some 1, 1, 0, true, 0, 0, none, none, none⟩

/-- A tracker mid-session (session 1) with the connection up, as left just
before a session-index change. -/
def midSessionState : TrackerState :=
  { TrackerState.init with
      inRace := true
      wasConnected := true
      currentSessionId := some 1
      currentLapId := some 1 }

/-! ### Shared lemmas about the tracker -/

lemma flushBuffer_laps (s : TrackerState) (db : DB) :
    (flushBuffer s db).2.laps = db.laps := by
  unfold flushBuffer; split <;> rfl

lemma flushBuffer_currentLapId (s : TrackerState) (db : DB) :
    (flushBuffer s db).1.currentLapId = s.currentLapId := by
  unfold flushBuffer; split <;> rfl

lemma flushBuffer_currentLapValid (s : TrackerState) (db : DB) :
    (flushBuffer s db).1.currentLapValid = s.currentLapValid := by
  unfold flushBuffer; split <;> rfl

lemma flushBuffer_currentSessionId (s : TrackerState) (db : DB) :
    (flushBuffer s db).1.currentSessionId = s.currentSessionId := by
  unfold flushBuffer; split <;> rfl

lemma flushBuffer_currentLapNumber (s : TrackerState) (db : DB) :
    (flushBuffer s db).1.currentLapNumber = s.currentLapNumber := by
  unfold flushBuffer; split <;> rfl

lemma flushBuffer_inRace (s : TrackerState) (db : DB) :
    (flushBuffer s db).1.inRace = s.inRace := by
  unfold flushBuffer; split <;> rfl

lemma updateLapRow_mem (db : DB) (lid : ℕ) (f : LapRow → LapRow)
    (row : LapRow) (hmem : row ∈ db.laps) (hid : row.id = lid) :
    f row ∈ (db.updateLapRow lid f).laps := by
  have h2 := List.mem_map_of_mem (fun r => if r.id == lid then f r else r) hmem
  simpa [DB.updateLapRow, hid] using h2

lemma onLapComplete_no_boundary (s : TrackerState) (db : DB) (snap : Snapshot) :
    ∀ e ∈ (onLapComplete s db snap).2.2, isSessionBoundary e = false := by
  intro e he
  unfold onLapComplete at he
  by_cases hc : s.ignoreFirstLap = true ∧ s.currentLapNumber = -1
  · rw [if_pos hc] at he
    exact absurd he (List.not_mem_nil e)
  · rw [if_neg hc] at he
    cases he with
    | head => rfl
    | tail _ h => cases h

lemma streamAfterMove_no_boundary (s : TrackerState) (db : DB)
    (snap : Snapshot) :
    ∀ e ∈ (streamAfterMove s db snap).2.2, isSessionBoundary e = false := by
  intro e he
  have hEq : (streamAfterMove s db snap).2.2 =
      (if (sectorUpdate s snap).lastCompletedLap < snap.completedLaps then
         onLapComplete (sectorUpdate s snap) db snap
       else (sectorUpdate s snap, db, [])).2.2 ++ [Event.telemetry] := rfl
  rw [hEq] at he
  rcases List.mem_append.mp he with h | h
  · by_cases hc : (sectorUpdate s snap).lastCompletedLap < snap.completedLaps
    · rw [if_pos hc] at h
      exact onLapComplete_no_boundary _ _ _ e h
    · rw [if_neg hc] at h
      exact absurd h (List.not_mem_nil e)
  · cases h with
    | head => rfl
    | tail _ h2 => cases h2

lemma streamTelemetry_no_boundary (s : TrackerState) (db : DB)
    (so : Option Snapshot) :
    ∀ e ∈ (streamTelemetry s db so).2.2, isSessionBoundary e = false := by
  rcases so with _ | snap
  · exact fun e he => absurd he (List.not_mem_nil e)
  · unfold streamTelemetry
    dsimp only
    split
    · intro e he
      cases he with
      | head => rfl
      | tail _ h => cases h
    · exact streamAfterMove_no_boundary _ _ _

lemma onRaceEnd_events (s : TrackerState) (db : DB)
    (analyze : ℕ → Except String AnalysisPayload) (sid : ℕ)
    (hs : s.currentSessionId = some sid) :
    ∃ a, (onRaceEnd s db analyze).2.2 = [Event.raceEnd sid a] := by
  have h1 : (flushBuffer { s with inRace := false } db).1.currentSessionId
      = some sid := by
    rw [flushBuffer_currentSessionId]; exact hs
  unfold onRaceEnd
  dsimp only
  rw [h1]
  exact ⟨_, rfl⟩

lemma onRaceStart_events (s : TrackerState) (db : DB) (snap : Snapshot) :
    (onRaceStart s db (some snap)).2.2 = [Event.raceStart db.nextSessionId] :=
  rfl

/-! ### Shared lemmas about the noise-merge pass -/

@[simp] lemma concatPoints_nil : concatPoints [] = [] := rfl

@[simp] lemma concatPoints_cons (s : RawSection) (l : List RawSection) :
    concatPoints (s :: l) = s.points ++ concatPoints l := rfl

lemma coversB_nil_iff (a b : ℕ) : coversB a b [] = true ↔ a = b := by
  simp [coversB]

lemma coversB_cons_iff (a b : ℕ) (s : RawSection) (l : List RawSection) :
    coversB a b (s :: l) = true ↔
      s.startIdx = a ∧ s.endIdx + 1 = a + s.points.length ∧
        0 < s.points.length ∧ coversB (s.endIdx + 1) b l = true := by
  simp [coversB, and_assoc]

lemma mergeLoop_concatPoints (l : List RawSection) :
    ∀ c : RawSection, concatPoints (mergeLoop c l) = c.points ++ concatPoints l := by
  induction l with
  | nil => intro c; simp [mergeLoop]
  | cons next rest ih =>
    intro c
    by_cases h : shouldMerge c next rest.head? = true
    · simp [mergeLoop, h, ih, List.append_assoc]
    · simp [mergeLoop, h, ih]

lemma mergeLoop_ne_nil (l : List RawSection) :
    ∀ c : RawSection, mergeLoop c l ≠ [] := by
  induction l with
  | nil => intro c; simp [mergeLoop]
  | cons next rest ih =>
    intro c
    by_cases h : shouldMerge c next rest.head? = true
    · simpa [mergeLoop, h] using ih _
    · simp [mergeLoop, h]

lemma mergeLoop_coversB (b : ℕ) (l : List RawSection) :
    ∀ (c : RawSection) (a : ℕ), coversB a b (c :: l) = true →
      coversB a b (mergeLoop c l) = true := by
  induction l with
  | nil => intro c a h; simpa [mergeLoop] using h
  | cons next rest ih =>
    intro c a h
    rw [coversB_cons_iff] at h
    obtain ⟨hc1, hc2, hc3, h2⟩ := h
    rw [coversB_cons_iff] at h2
    obtain ⟨hn1, hn2, hn3, h3⟩ := h2
    by_cases hm : shouldMerge c next rest.head? = true
    · simp only [mergeLoop, hm, if_true]
      apply ih
      rw [coversB_cons_iff]
      refine ⟨hc1, ?_, ?_, ?_⟩
      · simp only [List.length_append]
        omega
      · simp only [List.length_append]
        omega
      · simpa using h3
    · rw [mergeLoop, if_neg hm, coversB_cons_iff]
      refine ⟨hc1, hc2, hc3, ?_⟩
      apply ih
      rw [coversB_cons_iff]
      exact ⟨hn1, hn2, hn3, h3⟩

/-! ### Shared lemmas about the raw grouping pass -/

lemma takeWhile_append_cons {α : Type} (pred : α → Bool) (l1 : List α)
    (p : α) (l2 : List α) (h1 : ∀ x ∈ l1, pred x = true)
    (h2 : pred p = false) :
    (l1 ++ p :: l2).takeWhile pred = l1 := by
  induction l1 with
  | nil => simp [List.takeWhile, h2]
  | cons x xs ih =>
    have hx : pred x = true := h1 x (by simp)
    simp only [List.cons_append, List.takeWhile, hx, List.append_eq]
    rw [ih (fun y hy => h1 y (by simp [hy]))]

lemma concatPoints_append (l1 l2 : List RawSection) :
    concatPoints (l1 ++ l2) = concatPoints l1 ++ concatPoints l2 := by
  induction l1 with
  | nil => simp
  | cons s rest ih => simp [ih]

lemma sectionsPointCount_eq (l : List RawSection) :
    sectionsPointCount l = (concatPoints l).length := by
  induction l with
  | nil => rfl
  | cons s rest ih => simp [sectionsPointCount, concatPoints] at ih ⊢; omega

lemma extendLast_ne_nil (secs : List RawSection) (pts : List TSample) (e : ℕ)
    (h : secs ≠ []) : extendLast secs pts e ≠ [] := by
  cases secs with
  | nil => exact absurd rfl h
  | cons s rest =>
    cases rest with
    | nil => simp [extendLast]
    | cons t rs => simp [extendLast]

lemma extendLast_concatPoints (secs : List RawSection) (pts : List TSample)
    (e : ℕ) (h : secs ≠ []) :
    concatPoints (extendLast secs pts e) = concatPoints secs ++ pts := by
  induction secs with
  | nil => exact absurd rfl h
  | cons s rest ih =>
    cases rest with
    | nil => simp [extendLast, concatPoints]
    | cons t rs =>
      simp only [extendLast, concatPoints_cons]
      rw [ih (by simp)]
      simp [List.append_assoc]

lemma extendLast_coversB (secs : List RawSection) (pts : List TSample) :
    ∀ (x a : ℕ), secs ≠ [] → coversB x a secs = true → 0 < pts.length →
    coversB x (a + pts.length) (extendLast secs pts (a + pts.length - 1)) =
      true := by
  induction secs with
  | nil => intro x a h; exact absurd rfl h
  | cons s rest ih =>
    intro x a _ hc hp
    cases rest with
    | nil =>
      rw [coversB_cons_iff] at hc
      obtain ⟨h1, h2, h3, h4⟩ := hc
      rw [coversB_nil_iff] at h4
      simp only [extendLast]
      rw [coversB_cons_iff]
      simp only [coversB_nil_iff, List.length_append]
      refine ⟨h1, by omega, by omega, by omega⟩
    | cons t rs =>
      rw [coversB_cons_iff] at hc
      obtain ⟨h1, h2, h3, h4⟩ := hc
      simp only [extendLast]
      rw [coversB_cons_iff]
      exact ⟨h1, h2, h3, ih _ _ (by simp) h4 hp⟩

lemma coversB_append (l1 : List RawSection) :
    ∀ (a b c : ℕ), coversB a b l1 = true → ∀ l2, coversB b c l2 = true →
      coversB a c (l1 ++ l2) = true := by
  induction l1 with
  | nil =>
    intro a b c h l2 h2
    rw [coversB_nil_iff] at h
    simpa [h] using h2
  | cons s rest ih =>
    intro a b c h l2 h2
    rw [coversB_cons_iff] at h
    obtain ⟨h1, h3, h4, h5⟩ := h
    rw [List.cons_append, coversB_cons_iff]
    exact ⟨h1, h3, h4, ih _ _ _ h5 l2 h2⟩

lemma segStep_inv (processed : List TSample) (t0 : SType) (st : SegState)
    (p : TSample) (rest : List TSample) (hinv : SegInv processed t0 st)
    (hrun : 5 ≤ ((processed ++ p :: rest).takeWhile
      (fun q => pointType q == t0)).length) :
    SegInv (processed ++ [p]) t0 (segStep st processed.length p) := by
  obtain ⟨hconcat, hcov, hlen, hne, hemp⟩ := hinv
  have hlp : 0 < st.curPoints.length := List.length_pos.mpr hne
  unfold segStep
  dsimp only
  by_cases h1 : pointType p = st.curType
  · rw [if_pos h1]
    by_cases h2 : pointType p = .corner ∧ newDirection p ≠ st.curDirVar ∧
        newDirection p ≠ none ∧ st.curDirVar ≠ none
    · rw [if_pos h2, if_pos (by omega : 1 ≤ st.curPoints.length)]
      refine ⟨?_, ?_, ?_, by simp, fun h => absurd h (by simp)⟩
      · simp only [concatPoints_append, concatPoints_cons, concatPoints_nil,
          List.append_nil]
        rw [hconcat]
      · refine coversB_append st.sections 0 st.curStart processed.length hcov
          _ ?_
        rw [coversB_cons_iff]
        refine ⟨rfl, ?_, hlp, ?_⟩
        · dsimp only; omega
        · dsimp only
          rw [coversB_nil_iff]
          omega
      · simp only [List.length_append, List.length_cons, List.length_nil]
    · rw [if_neg h2]
      refine ⟨?_, hcov, ?_, by simp, ?_⟩
      · simp only [concatPoints_cons]
        rw [← List.append_assoc, hconcat]
      · simp only [List.length_append, List.length_cons, List.length_nil]
        omega
      · intro hsec
        obtain ⟨hz, ht, hall⟩ := hemp hsec
        refine ⟨hz, ht, ?_⟩
        intro q hq
        rcases List.mem_append.mp hq with h | h
        · exact hall q h
        · have hqp : q = p := by simpa using h
          rw [hqp, h1, ht]
  · rw [if_neg h1]
    by_cases h5 : 5 ≤ st.curPoints.length
    · rw [if_pos h5]
      refine ⟨?_, ?_, ?_, by simp, fun h => absurd h (by simp)⟩
      · simp only [concatPoints_append, concatPoints_cons, concatPoints_nil,
          List.append_nil]
        rw [hconcat]
      · refine coversB_append st.sections 0 st.curStart processed.length hcov
          _ ?_
        rw [coversB_cons_iff]
        refine ⟨rfl, ?_, hlp, ?_⟩
        · dsimp only; omega
        · dsimp only
          rw [coversB_nil_iff]
          omega
      · simp only [List.length_append, List.length_cons, List.length_nil]
    · rw [if_neg h5]
      by_cases hsec : st.sections = []
      · exfalso
        obtain ⟨hz, ht, hall⟩ := hemp hsec
        have hpt : pointType p ≠ t0 := fun hc => h1 (by rw [hc, ht])
        have htw := takeWhile_append_cons (fun q => pointType q == t0)
          processed p rest (fun q hq => by simp [hall q hq])
          (by simp [hpt])
        rw [htw] at hrun
        omega
      · refine ⟨?_, ?_, ?_, by simp,
          fun h => absurd h (extendLast_ne_nil _ _ _ hsec)⟩
        · simp only [concatPoints_cons]
          rw [extendLast_concatPoints _ _ _ hsec, hconcat]
        · have hcv2 := extendLast_coversB st.sections st.curPoints 0
            st.curStart hsec hcov hlp
          rwa [hlen] at hcv2
        · simp only [List.length_append, List.length_cons, List.length_nil]

lemma segLoop_inv (rest : List TSample) :
    ∀ (processed : List TSample) (st : SegState) (t0 : SType),
      SegInv processed t0 st →
      5 ≤ ((processed ++ rest).takeWhile
        (fun q => pointType q == t0)).length →
      SegInv (processed ++ rest) t0 (segLoop st processed.length rest) := by
  induction rest with
  | nil =>
    intro processed st t0 hinv _
    simpa [segLoop] using hinv
  | cons p rs ih =>
    intro processed st t0 hinv hrun
    have hstep := segStep_inv processed t0 st p rs hinv hrun
    have hrec := ih (processed ++ [p]) (segStep st processed.length p) t0
      hstep (by simpa [List.append_assoc] using hrun)
    rw [segLoop]
    have hplen : (processed ++ [p]).length = processed.length + 1 := by simp
    rw [hplen] at hrec
    simpa [List.append_assoc] using hrec

lemma finishSeg_props (tel : List TSample) (t0 : SType) (st : SegState)
    (hinv : SegInv tel t0 st)
    (hrun : 5 ≤ (tel.takeWhile (fun q => pointType q == t0)).length) :
    concatPoints (finishSeg st tel.length) = tel ∧
    coversB 0 tel.length (finishSeg st tel.length) = true ∧
    finishSeg st tel.length ≠ [] := by
  obtain ⟨hconcat, hcov, hlen, hne, hemp⟩ := hinv
  have hlp : 0 < st.curPoints.length := List.length_pos.mpr hne
  have htwle : (tel.takeWhile (fun q => pointType q == t0)).length ≤
      tel.length := by
    have hpre := List.takeWhile_prefix
      (l := tel) (p := fun q => pointType q == t0)
    exact hpre.length_le
  unfold finishSeg
  by_cases h5 : 5 ≤ st.curPoints.length
  · rw [if_pos h5]
    refine ⟨?_, ?_, by simp⟩
    · simp only [concatPoints_append, concatPoints_cons, concatPoints_nil,
        List.append_nil]
      rw [hconcat]
    · refine coversB_append st.sections 0 st.curStart tel.length hcov _ ?_
      rw [coversB_cons_iff]
      refine ⟨rfl, ?_, hlp, ?_⟩
      · dsimp only; omega
      · dsimp only
        rw [coversB_nil_iff]
        omega
  · rw [if_neg h5]
    by_cases hsec : st.sections = []
    · exfalso
      obtain ⟨hz, _, _⟩ := hemp hsec
      omega
    · refine ⟨?_, ?_, extendLast_ne_nil _ _ _ hsec⟩
      · rw [extendLast_concatPoints _ _ _ hsec, hconcat]
      · have hcv2 := extendLast_coversB st.sections st.curPoints 0 st.curStart
          hsec hcov hlp
        rwa [hlen] at hcv2

lemma segLoop_all_straight (rest : List TSample) :
    ∀ processed : List TSample,
      (∀ q ∈ rest, pointType q = .straight) →
      segLoop { sections := [], curType := .straight, curStart := 0,
                curPoints := processed, curDir := none, curDirVar := none }
        processed.length rest =
      { sections := [], curType := .straight, curStart := 0,
        curPoints := processed ++ rest, curDir := none,
        curDirVar := none } := by
  induction rest with
  | nil => intro processed _; simp [segLoop]
  | cons p rs ih =>
    intro processed hall
    have hp : pointType p = .straight := hall p (by simp)
    rw [segLoop]
    have hstep : segStep
        { sections := [], curType := .straight, curStart := 0,
          curPoints := processed, curDir := none, curDirVar := none }
        processed.length p =
        { sections := [], curType := .straight, curStart := 0,
          curPoints := processed ++ [p], curDir := none,
          curDirVar := none } := by
      unfold segStep
      dsimp only
      rw [if_pos hp, if_neg (by simp [hp])]
    rw [hstep]
    have hrec := ih (processed ++ [p]) (fun q hq => hall q (by simp [hq]))
    have hplen : (processed ++ [p]).length = processed.length + 1 := by simp
    rw [hplen] at hrec
    rw [hrec]
    simp [List.append_assoc]

/-- Claim C10: the noise-merge pass conserves samples — the concatenation
of the output sections' point lists equals the concatenation of the input
sections' point lists in order, and the output is non-empty whenever the
input is. -/
theorem merge_conserves_points (l : List RawSection) :
    concatPoints (mergeTrackSections l) = concatPoints l ∧
    (l ≠ [] → mergeTrackSections l ≠ []) := by
  cases l with
  | nil => simp [mergeTrackSections]
  | cons s rest =>
    constructor
    · simp [mergeTrackSections, mergeLoop_concatPoints]
    · intro _
      simpa [mergeTrackSections] using mergeLoop_ne_nil rest s

/-- Witness for C10 at a concrete section list. -/
theorem merge_conserves_points_witness :
    concatPoints (mergeTrackSections [fixSecCornerA, fixSecStraight]) =
      concatPoints [fixSecCornerA, fixSecStraight] ∧
    mergeTrackSections [fixSecCornerA, fixSecStraight] ≠ [] :=
  ⟨(merge_conserves_points [fixSecCornerA, fixSecStraight]).1,
   (merge_conserves_points [fixSecCornerA, fixSecStraight]).2 (by simp)⟩

/-- Claim C5: a corner, a straight of fewer than 15 samples, and a second
corner of the same direction merge into one corner section carrying all the
points; with differing corner directions nothing merges and the three
sections survive, in particular the two corners stay distinct. -/
theorem merge_corner_lookahead :
    (∀ (c1 s c2 : RawSection) (d : CDir),
      c1.type = .corner → c1.direction = some d →
      s.type = .straight → s.points.length < 15 →
      c2.type = .corner → c2.direction = some d →
      mergeTrackSections [c1, s, c2] =
        [{ c1 with points := c1.points ++ s.points ++ c2.points,
                   endIdx := c2.endIdx }]) ∧
    (∀ (c1 s c2 : RawSection) (d1 d2 : CDir),
      d1 ≠ d2 →
      c1.type = .corner → c1.direction = some d1 →
      s.type = .straight → s.points.length < 15 →
      c2.type = .corner → c2.direction = some d2 →
      mergeTrackSections [c1, s, c2] = [c1, s, c2]) := by
  constructor
  · intro c1 s c2 d h1 h2 h3 h4 h5 h6
    have hm1 : shouldMerge c1 s (some c2) = true := by
      simp [shouldMerge, h1, h2, h3, h4, h5, h6]
    have hm2 : ∀ cl : RawSection, cl.type = .corner → cl.direction = some d →
        shouldMerge cl c2 none = true := by
      intro cl hclt hcld
      simp [shouldMerge, hclt, hcld, h5, h6]
    simp only [mergeTrackSections, mergeLoop, List.head?]
    rw [if_pos hm1,
        if_pos (hm2 (RawSection.mk c1.type c1.startIdx s.endIdx
          (c1.points ++ s.points) c1.direction) h1 h2)]
  · intro c1 s c2 d1 d2 hd h1 h2 h3 h4 h5 h6
    have hd2 : d2 ≠ d1 := Ne.symm hd
    have hm1 : shouldMerge c1 s (some c2) = false := by
      simp [shouldMerge, h1, h2, h3, h4, h5, h6, hd2]
    have hm2 : shouldMerge s c2 none = false := by
      simp [shouldMerge, h1, h2, h3, h5, h6]
    simp only [mergeTrackSections, mergeLoop, List.head?]
    rw [if_neg (by simp [hm1] : ¬shouldMerge c1 s (some c2) = true),
        if_neg (by simp [hm2] : ¬shouldMerge s c2 none = true)]

/-- Claim C6: record updates are strict-improvement-only and monotonic —
the stored best time is replaced only when the new time is strictly lower
(tie or worse leaves the stored record unchanged), a missing record is
always created, and the sequences 32.1-then-31.9 and 31.9-then-32.1 both
leave the stored best at 31.9.  Sector bests inside a personal record
behave the same whenever the stored sector time is a real (nonzero) time. -/
theorem record_update_strict_improvement :
    (∀ (cur : PersonalRecord) (sid : ℕ) (t : ℚ) (s1 s2 s3 : Option ℚ),
        (update_personal_records (some cur) sid t s1 s2 s3).1.bestLapTime =
          if t < cur.bestLapTime then t else cur.bestLapTime) ∧
    (∀ (sid : ℕ) (t : ℚ) (s1 s2 s3 : Option ℚ),
        (update_personal_records none sid t s1 s2 s3).1.bestLapTime = t) ∧
    (∀ nv cv : ℚ, cv ≠ 0 →
        updateSector (some nv) (some cv) =
          if nv ≠ 0 ∧ nv < cv then (some nv, true) else (some cv, false)) ∧
    (∀ (cur : SectionRecord) (sid : ℕ) (t : ℚ) (a m : Option ℚ),
        (update_section_record (some cur) sid t a m).1.bestTime =
          if t < cur.bestTime then t else cur.bestTime) ∧
    (∀ (cur : SectionRecord) (sid : ℕ) (t : ℚ) (a m : Option ℚ),
        cur.bestTime ≤ t →
        update_section_record (some cur) sid t a m = (cur, false)) ∧
    (∀ (sid : ℕ) (t : ℚ) (a m : Option ℚ),
        (update_section_record none sid t a m).1.bestTime = t) ∧
    (∀ sid1 sid2 : ℕ,
        (update_personal_records
          (some (update_personal_records none sid1 (321/10) none none none).1)
          sid2 (319/10) none none none).1.bestLapTime = 319/10) ∧
    (∀ sid1 sid2 : ℕ,
        (update_personal_records
          (some (update_personal_records none sid1 (319/10) none none none).1)
          sid2 (321/10) none none none).1.bestLapTime = 319/10) := by
  refine ⟨?_, ?_, ?_, ?_, ?_, ?_, ?_, ?_⟩
  · intro cur sid t s1 s2 s3
    by_cases h : t < cur.bestLapTime <;> simp [update_personal_records, h]
  · intro sid t s1 s2 s3
    simp [update_personal_records]
  · intro nv cv hcv
    by_cases h : nv ≠ 0 ∧ nv < cv
    · simp [updateSector, truthyQ, hcv, h]
    · rw [if_neg h]
      rcases not_and_or.mp h with h0 | hlt
      · simp only [ne_eq, not_not] at h0
        simp [updateSector, h0]
      · simp [updateSector, truthyQ, hcv, hlt]
  · intro cur sid t a m
    by_cases h : t < cur.bestTime <;> simp [update_section_record, h]
  · intro cur sid t a m h
    simp [update_section_record, not_lt.mpr h]
  · intro sid t a m
    simp [update_section_record]
  · intro sid1 sid2
    norm_num [update_personal_records]
  · intro sid1 sid2
    norm_num [update_personal_records]

/-- Witness for C6 at concrete records and times. -/
theorem record_update_strict_improvement_witness :
    ((update_personal_records (some ⟨40, none, none, none, 1⟩) 2 39 none none
        none).1.bestLapTime = if (39 : ℚ) < 40 then 39 else 40) ∧
    (1 : ℚ) ≠ 0 ∧
    updateSector (some 2) (some 1) =
      (if (2 : ℚ) ≠ 0 ∧ (2 : ℚ) < 1 then (some 2, true) else (some 1, false)) ∧
    (32 : ℚ) ≤ 32 ∧
    update_section_record (some ⟨32, none, none, 1⟩) 2 32 none none =
      (⟨32, none, none, 1⟩, false) ∧
    (update_personal_records
      (some (update_personal_records none 1 (321/10) none none none).1)
      2 (319/10) none none none).1.bestLapTime = 319/10 :=
  ⟨record_update_strict_improvement.1 ⟨40, none, none, none, 1⟩ 2 39 none none
      none,
   by norm_num,
   record_update_strict_improvement.2.2.1 2 1 (by norm_num),
   le_refl 32,
   record_update_strict_improvement.2.2.2.2.1 ⟨32, none, none, 1⟩ 2 32 none
     none (le_refl 32),
   record_update_strict_improvement.2.2.2.2.2.2.1 1 2⟩

/-- Claim C9: a failing analysis at session end is caught — `on_race_end`
still emits exactly one `race_end` event whose payload is the degraded
result (`analysis_complete = false` with the failure cause in the
recommendations), and the tracker's session state is reset. -/
theorem analysis_failure_degraded (s : TrackerState) (db : DB)
    (analyze : ℕ → Except String AnalysisPayload) (sid : ℕ) (e : String)
    (hs : s.currentSessionId = some sid) (ha : analyze sid = .error e) :
    (onRaceEnd s db analyze).2.2 =
      [Event.raceEnd sid
        { recommendations := ["Error durante el análisis: " ++ e],
          analysisComplete := false }] ∧
    (onRaceEnd s db analyze).1.inRace = false ∧
    (onRaceEnd s db analyze).1.currentSessionId = none ∧
    (onRaceEnd s db analyze).1.currentLapId = none ∧
    (onRaceEnd s db analyze).1.currentLapNumber = 0 := by
  unfold onRaceEnd flushBuffer
  by_cases hb : s.lapTelemetryBuffer.isEmpty <;> simp [hb, hs, ha]

/-- Witness for C9: a concrete failing analysis on a fresh tracker that is
inside session 7. -/
theorem analysis_failure_degraded_witness :
    ({ TrackerState.init with currentSessionId := some 7 } :
        TrackerState).currentSessionId = some 7 ∧
    (fun _ : ℕ => (.error "boom" : Except String AnalysisPayload)) 7 =
      .error "boom" ∧
    (onRaceEnd { TrackerState.init with currentSessionId := some 7 } DB.empty
        (fun _ => .error "boom")).2.2 =
      [Event.raceEnd 7
        { recommendations := ["Error durante el análisis: " ++ "boom"],
          analysisComplete := false }] :=
  ⟨rfl, rfl,
   (analysis_failure_degraded
      { TrackerState.init with currentSessionId := some 7 } DB.empty
      (fun _ => .error "boom") 7 "boom" rfl rfl).1⟩

/-- Counterexample for C4: for the off-track corner with entry speed 120
and minimum speed 80.2 (which satisfies `0 < min < entry`), the analyzer
stores 92.2 — the value `min * 1.15 = 92.23` rounded to one decimal — not
`min * 1.15` itself as the claim states. -/
theorem recommended_speed_counterexample :
    sectionIsValid fixOffTrackSection.points = false ∧
    fixOffTrackSection.type = .corner ∧
    (fixOffTrackSection.points.map (fun p => p.speed)).headD 0 = 120 ∧
    minSpeed (fixOffTrackSection.points.map (fun p => p.speed)) = 802/10 ∧
    (0 : ℚ) < 802/10 ∧ (802/10 : ℚ) < 120 ∧
    analyzeRecommendedSpeed fixOffTrackSection = some (461/5) ∧
    (461/5 : ℚ) ≠ 802/10 * (115/100) := by
  refine ⟨by decide, by decide, by norm_num [fixOffTrackSection],
    by norm_num [minSpeed, fixOffTrackSection, min_def], by norm_num,
    by norm_num, ?_, by norm_num⟩
  norm_num [analyzeRecommendedSpeed, computeRecommendedSpeed, minSpeed,
    sectionIsValid, maxTiresOut, fixOffTrackSection, round1, round_eq,
    min_def]

/-- Claim C4 as amended: the recommendation values pass through the
source's one-decimal rounding.  For an invalid corner the analyzer stores
`round1(min * 1.15)` when `0 < min < entry` and `round1(entry * 0.85)`
otherwise, clamping any result `≥ entry` to `round1(entry * 0.85)`; the
spec's examples (120/80 ↦ 92.0 and 100/0 ↦ 85.0) hold exactly. -/
theorem recommended_speed_formula :
    (∀ entry minv : ℚ, 0 < minv → minv < entry →
        computeRecommendedSpeed entry minv =
          if entry ≤ round1 (minv * (115/100)) then round1 (entry * (85/100))
          else round1 (minv * (115/100))) ∧
    (∀ entry minv : ℚ, ¬(0 < minv ∧ minv < entry) →
        computeRecommendedSpeed entry minv = round1 (entry * (85/100))) ∧
    (∀ sec : RawSection, sectionIsValid sec.points = false →
        sec.type = .corner →
        analyzeRecommendedSpeed sec =
          some (computeRecommendedSpeed
            ((sec.points.map (fun p => p.speed)).headD 0)
            (minSpeed (sec.points.map (fun p => p.speed))))) ∧
    computeRecommendedSpeed 120 80 = 92 ∧
    computeRecommendedSpeed 100 0 = 85 := by
  refine ⟨?_, ?_, ?_,
    by norm_num [computeRecommendedSpeed, round1, round_eq],
    by norm_num [computeRecommendedSpeed, round1, round_eq]⟩
  · intro entry minv h1 h2
    simp only [computeRecommendedSpeed]
    rw [if_pos (⟨h1, h2⟩ : 0 < minv ∧ minv < entry)]
  · intro entry minv h
    simp only [computeRecommendedSpeed]
    rw [if_neg h, ite_self]
  · intro sec h1 h2
    simp only [analyzeRecommendedSpeed]
    rw [if_pos ⟨h1, h2⟩]

/-- Witness for C4 (amended) at the off-track fixture and the two spec
examples. -/
theorem recommended_speed_formula_witness :
    (0 : ℚ) < 802/10 ∧ (802/10 : ℚ) < 120 ∧
    computeRecommendedSpeed 120 (802/10) =
      (if (120 : ℚ) ≤ round1 (802/10 * (115/100)) then round1 (120 * (85/100))
       else round1 (802/10 * (115/100))) ∧
    sectionIsValid fixOffTrackSection.points = false ∧
    analyzeRecommendedSpeed fixOffTrackSection =
      some (computeRecommendedSpeed
        ((fixOffTrackSection.points.map (fun p => p.speed)).headD 0)
        (minSpeed (fixOffTrackSection.points.map (fun p => p.speed)))) :=
  ⟨by norm_num, by norm_num,
   recommended_speed_formula.1 120 (802/10) (by norm_num) (by norm_num),
   by decide,
   recommended_speed_formula.2.2.1 fixOffTrackSection (by decide) (by decide)⟩

/-- Claim C3: with `ignore_first_lap` set and `current_lap_number = -1`, a
lap-completion event finalizes no lap row, creates none, leaves the counter
at `-1`, clears the sample buffer and the ignore flag, and leaves the store
untouched; the next lap-completion event (with a positive reported lap
time) finalizes the provisional row created at race start, which carries
display lap number 1. -/
theorem practice_first_lap_discard :
    (∀ (s : TrackerState) (db : DB) (snap : Snapshot),
      s.ignoreFirstLap = true → s.currentLapNumber = -1 →
      onLapComplete s db snap =
        ({ s with ignoreFirstLap := false, lapTelemetryBuffer := [],
                  lastCompletedLap := snap.completedLaps }, db, []) ∧
      (onLapComplete s db snap).1.currentLapNumber = -1 ∧
      (onLapComplete s db snap).1.ignoreFirstLap = false ∧
      (onLapComplete s db snap).1.lapTelemetryBuffer = [] ∧
      (onLapComplete s db snap).2.1 = db) ∧
    (∀ (s : TrackerState) (db : DB) (snap : Snapshot) (lid : ℕ) (row : LapRow),
      s.ignoreFirstLap = false → s.currentLapId = some lid →
      0 < snap.lastLapTime / 1000 →
      row ∈ db.laps → row.id = lid → row.lapNumber = 1 →
      ∃ r ∈ (onLapComplete s db snap).2.1.laps,
        r.id = lid ∧ r.lapNumber = 1 ∧ r.lapTime = snap.lastLapTime / 1000 ∧
        r.isValid = s.currentLapValid) := by
  constructor
  · intro s db snap h1 h2
    have hEq : onLapComplete s db snap =
        ({ s with ignoreFirstLap := false, lapTelemetryBuffer := [],
                  lastCompletedLap := snap.completedLaps }, db, []) := by
      unfold onLapComplete
      rw [if_pos ⟨h1, h2⟩]
    exact ⟨hEq, by simp [hEq, h2], by simp [hEq], by simp [hEq], by simp [hEq]⟩
  · intro s db snap lid row h1 h2 h3 hmem hid hnum
    have hcond : ¬(s.ignoreFirstLap = true ∧ s.currentLapNumber = -1) := by
      simp [h1]
    have hl := flushBuffer_laps s db
    have hci := flushBuffer_currentLapId s db
    have hcv := flushBuffer_currentLapValid s db
    rcases hf : flushBuffer s db with ⟨s1, db1⟩
    rw [hf] at hl hci hcv
    simp only at hl hci hcv
    rw [h2] at hci
    unfold onLapComplete
    rw [if_neg hcond, hf]
    simp only [hci, hl]
    rw [if_pos h3]
    simp only [DB.createLap, DB.updateSessionStats, List.mem_append]
    refine ⟨_, Or.inl (updateLapRow_mem db1 lid _ row (hl ▸ hmem) hid),
      ?_, ?_, ?_, ?_⟩
    · simp [hid]
    · simp [hnum]
    · simp
    · simp [hcv]

/-- Witness for C3: a practice tracker mid-discard and the follow-up
completion on the concrete practice run. -/
theorem practice_first_lap_discard_witness :
    practiceDiscardState.ignoreFirstLap = true ∧
    (onLapComplete practiceDiscardState DB.empty snapRace).1.currentLapNumber
      = -1 ∧
    (0 : ℚ) < snapNewSession.lastLapTime / 1000 ∧
    practiceRow ∈ practiceDb.laps ∧
    ∃ r ∈ (onLapComplete practicePostDiscardState practiceDb
        snapNewSession).2.1.laps,
      r.id = 1 ∧ r.lapNumber = 1 ∧
      r.lapTime = snapNewSession.lastLapTime / 1000 ∧
      r.isValid = practicePostDiscardState.currentLapValid :=
  ⟨rfl,
   (practice_first_lap_discard.1 practiceDiscardState DB.empty snapRace rfl
      rfl).2.1,
   by norm_num [snapNewSession, snapRace],
   by simp [practiceRow, practiceDb, DB.createLap, DB.empty],
   practice_first_lap_discard.2 practicePostDiscardState practiceDb
      snapNewSession 1 practiceRow rfl rfl
      (by norm_num [snapNewSession, snapRace])
      (by simp [practiceRow, practiceDb, DB.createLap, DB.empty]) rfl rfl⟩

/-- Counterexample for C1: on a single-sample input the raw grouping drops
the in-flight section (it is shorter than 5 samples and no previous section
exists), so the segmenter returns no sections at all — the output is not a
cover of the input and the point counts do not add up to the input length. -/
theorem segmentation_cover_counterexample :
    detectTrackSections [cornerRightSample] = [] ∧
    sectionsPointCount (detectTrackSections [cornerRightSample]) ≠
      [cornerRightSample].length := by
  have h : detectTrackSections [cornerRightSample] = [] := by decide
  refine ⟨h, ?_⟩
  rw [h]
  decide

/-- Claim C1 as amended: whenever the input's leading run of equally
classified samples has at least 5 samples (so the raw grouping never
reaches the point-dropping branch), the Section list produced by the raw
grouping followed by the noise-merge pass is a contiguous, ordered,
non-overlapping cover of the input: `coversB 0 n` pins adjacent increasing
index ranges starting at sample 0 and ending at sample `n-1` with each
range matching its point count, the concatenated points are exactly the
input, and the total point count equals the input length. -/
theorem segmentation_cover (p : TSample) (rest : List TSample)
    (hrun : 5 ≤ ((p :: rest).takeWhile
      (fun q => pointType q == pointType p)).length) :
    detectTrackSections (p :: rest) ≠ [] ∧
    coversB 0 (p :: rest).length (detectTrackSections (p :: rest)) = true ∧
    concatPoints (detectTrackSections (p :: rest)) = p :: rest ∧
    sectionsPointCount (detectTrackSections (p :: rest)) =
      (p :: rest).length := by
  set st0 : SegState :=
    { sections := [], curType := pointType p, curStart := 0,
      curPoints := [p], curDir := newDirection p,
      curDirVar := newDirection p } with hst0
  have hinv0 : SegInv [p] (pointType p) st0 := by
    refine ⟨by simp [hst0], by simp [hst0, coversB], by simp [hst0],
      by simp [hst0], ?_⟩
    intro _
    refine ⟨rfl, rfl, ?_⟩
    intro q hq
    simp at hq
    rw [hq]
  have hloop := segLoop_inv rest [p] st0 (pointType p) hinv0
    (by simpa using hrun)
  rw [List.singleton_append] at hloop
  simp only [List.length_singleton] at hloop
  have hfin := finishSeg_props (p :: rest) (pointType p) _ hloop hrun
  obtain ⟨hc, hcv, hnn⟩ := hfin
  have hdet : detectTrackSections (p :: rest) =
      mergeTrackSections
        (finishSeg (segLoop st0 1 rest) (p :: rest).length) := rfl
  rcases hraw : finishSeg (segLoop st0 1 rest) (p :: rest).length with
    _ | ⟨s, tl⟩
  · exact absurd hraw hnn
  · rw [hraw] at hc hcv
    have h3 : concatPoints (detectTrackSections (p :: rest)) = p :: rest := by
      rw [hdet, hraw]
      show concatPoints (mergeLoop s tl) = _
      rw [mergeLoop_concatPoints]
      simpa using hc
    refine ⟨?_, ?_, h3, ?_⟩
    · rw [hdet, hraw]
      exact mergeLoop_ne_nil tl s
    · rw [hdet, hraw]
      exact mergeLoop_coversB _ tl s 0 hcv
    · rw [sectionsPointCount_eq, h3]

/-- Witness for C1 (amended) on five straight samples. -/
theorem segmentation_cover_witness :
    5 ≤ ((straightSample :: List.replicate 4 straightSample).takeWhile
      (fun q => pointType q == pointType straightSample)).length ∧
    detectTrackSections
      (straightSample :: List.replicate 4 straightSample) ≠ [] ∧
    coversB 0 (straightSample :: List.replicate 4 straightSample).length
      (detectTrackSections
        (straightSample :: List.replicate 4 straightSample)) = true := by
  have h : 5 ≤ ((straightSample :: List.replicate 4 straightSample).takeWhile
      (fun q => pointType q == pointType straightSample)).length := by
    norm_num [List.takeWhile, List.replicate]
  exact ⟨h,
    (segmentation_cover straightSample (List.replicate 4 straightSample) h).1,
    (segmentation_cover straightSample
      (List.replicate 4 straightSample) h).2.1⟩

/-- Counterexample for C8: a non-empty all-straight sample list with fewer
than 5 samples yields an empty section list, not a single spanning straight
section — the short in-flight section is dropped at end of stream because
no previous section exists. -/
theorem all_straight_counterexample :
    pointType straightSample = .straight ∧
    ([straightSample, straightSample] : List TSample) ≠ [] ∧
    detectTrackSections [straightSample, straightSample] = [] := by
  refine ⟨by norm_num [pointType, straightSample], by simp, ?_⟩
  norm_num [detectTrackSections, segLoop, segStep, finishSeg, extendLast,
    mergeTrackSections, pointType, newDirection, straightSample]

/-- Claim C8 as amended: an empty sample list yields an empty Section list,
and an all-straight sample list of at least 5 samples yields exactly one
straight Section spanning all input samples; all-straight inputs shorter
than 5 samples yield an empty list (see the counterexample). -/
theorem segmenter_edge_cases :
    detectTrackSections [] = [] ∧
    ∀ tel : List TSample, 5 ≤ tel.length →
      (∀ q ∈ tel, pointType q = .straight) →
      detectTrackSections tel =
        [{ type := .straight, startIdx := 0, endIdx := tel.length - 1,
           points := tel, direction := none }] := by
  refine ⟨rfl, ?_⟩
  intro tel hlen hall
  rcases tel with _ | ⟨p, rest⟩
  · simp at hlen
  · have hp : pointType p = .straight := hall p (by simp)
    have hnd : newDirection p = none := by simp [newDirection, hp]
    show mergeTrackSections
      (finishSeg (segLoop
        { sections := [], curType := pointType p, curStart := 0,
          curPoints := [p], curDir := newDirection p,
          curDirVar := newDirection p } 1 rest) (p :: rest).length) = _
    rw [hp, hnd]
    have hloop := segLoop_all_straight rest [p]
      (fun q hq => hall q (by simp [hq]))
    rw [show ([p] : List TSample).length = 1 from rfl] at hloop
    rw [hloop]
    unfold finishSeg
    rw [if_pos (show 5 ≤ (([p] : List TSample) ++ rest).length by
      simpa using hlen)]
    dsimp only
    show mergeLoop _ [] = _
    rw [mergeLoop]
    simp

/-- Witness for C8 (amended): the empty input and five straight samples. -/
theorem segmenter_edge_cases_witness :
    detectTrackSections [] = [] ∧
    5 ≤ (List.replicate 5 straightSample).length ∧
    (∀ q ∈ List.replicate 5 straightSample, pointType q = .straight) ∧
    detectTrackSections (List.replicate 5 straightSample) =
      [{ type := .straight, startIdx := 0,
         endIdx := (List.replicate 5 straightSample).length - 1,
         points := List.replicate 5 straightSample, direction := none }] := by
  have h1 : 5 ≤ (List.replicate 5 straightSample).length := by simp
  have h2 : ∀ q ∈ List.replicate 5 straightSample,
      pointType q = .straight := by
    intro q hq
    rw [List.eq_of_mem_replicate hq]
    norm_num [pointType, straightSample]
  exact ⟨segmenter_edge_cases.1, h1, h2,
    segmenter_edge_cases.2 (List.replicate 5 straightSample) h1 h2⟩

/-- Claim C2 (code-bug evidence): the validity latch is reset only in the
normal lap-finalize path — neither at race start nor in the practice
discard branch — so a `false` latched in one session leaks into the next
session's first lap.  In the three-tick run below, the only sample
processed while session 2 was active (`snapNewSession`) reports
`is_valid_lap = true`, yet session 2's first lap row is finalized with
`isValid = false`, contradicting the claim that a lap whose raw flag is
true at every sample is finalized valid. -/
theorem validity_latch_leak :
    snapNewSession.isValidLap = true ∧
    leakRun2.1.currentLapValid = false ∧
    leakRun3.2.1.laps.map
        (fun r => (r.sessionId, r.lapNumber, r.lapTime, r.isValid)) =
      [(some 1, 1, 0, true), (some 1, 2, 0, true), (some 2, 1, 90, false),
       (some 2, 2, 0, true)] := by
  refine ⟨rfl, ?_, ?_⟩ <;>
    norm_num [leakRun3, leakRun2, leakRun1, monitorStep, onRaceStart,
      onRaceEnd, onLapComplete, streamTelemetry, streamAfterMove, movedState,
      sectorUpdate, bufferAppend, setSectorTime, flushBuffer, okAnalyze,
      TrackerState.init, DB.empty, DB.createSession, DB.createLap,
      DB.insertTelemetryBatch, DB.getLapTelemetry, DB.updateLapRow,
      DB.updateSessionStats, DB.updateSessionEnd,
      snapRace, snapInvalid, snapNewSession,
      (show strContains "Race" "practice" = false from by decide),
      (show strContains "Race" "practica" = false from by decide)]

/-- Counterexample for C7: a session restart does emit `race_end` before
the next `race_start`, but session 1's provisional lap row survives with
`lap_time = 0` after session 1 has ended — a dangling unfinalized row of
the ended session, contradicting the claim's second half. -/
theorem session_restart_counterexample :
    restartRun2.2.2 =
      [Event.raceEnd 1 ⟨[], true⟩, Event.raceStart 2, Event.telemetry] ∧
    restartRun2.2.1.sessions.map (fun r => (r.id, r.ended)) =
      [(1, true), (2, false)] ∧
    restartRun2.2.1.laps.map (fun r => (r.sessionId, r.lapNumber, r.lapTime)) =
      [(some 1, 1, 0), (some 2, 1, 0)] := by
  refine ⟨?_, ?_, ?_⟩ <;>
    norm_num [restartRun2, restartRun1, monitorStep, onRaceStart, onRaceEnd,
      onLapComplete, streamTelemetry, streamAfterMove, movedState,
      sectorUpdate, bufferAppend, setSectorTime, flushBuffer, okAnalyze,
      TrackerState.init, DB.empty, DB.createSession, DB.createLap,
      DB.insertTelemetryBatch, DB.getLapTelemetry, DB.updateLapRow,
      DB.updateSessionStats, DB.updateSessionEnd,
      snapRace, snapIdle, snapIdleRestart,
      (show strContains "Race" "practice" = false from by decide),
      (show strContains "Race" "practica" = false from by decide)]

/-- Claim C7 as amended: a session-index or session-type change observed
while in a session (with a session id on record) produces exactly one
`race_end` event, immediately followed by the next session's `race_start`,
with no further session-boundary events in that tick; the ended session's
in-progress provisional lap row, however, remains unfinalized in the store
(see the counterexample). -/
theorem session_restart_single_end
    (analyze : ℕ → Except String AnalysisPayload) (snap : Snapshot)
    (s : TrackerState) (db : DB) (sid : ℕ)
    (hin : s.inRace = true) (hwc : s.wasConnected = true)
    (hsid : s.currentSessionId = some sid)
    (hchange : snap.sessionIndex ≠ s.lastSessionIndex ∨
      snap.sessionType ≠ s.currentSessionType) :
    ∃ (a : AnalysisPayload) (newSid : ℕ) (rest : List Event),
      (monitorStep analyze true (some snap) true s db).2.2 =
        Event.raceEnd sid a :: Event.raceStart newSid :: rest ∧
      ∀ e ∈ rest, isSessionBoundary e = false := by
  obtain ⟨a, ha⟩ := onRaceEnd_events s db analyze sid hsid
  unfold monitorStep
  rw [if_neg (show ¬¬s.wasConnected = true by simp [hwc])]
  dsimp only
  rw [if_pos (⟨hin, hchange⟩ : s.inRace = true ∧ (snap.sessionIndex ≠
    s.lastSessionIndex ∨ snap.sessionType ≠ s.currentSessionType))]
  dsimp only
  rw [if_pos (show ¬false = true by simp)]
  rw [ha, onRaceStart_events]
  simp only [eq_self_iff_true, if_true]
  simp only [List.nil_append, List.append_assoc, List.singleton_append]
  exact ⟨a, _, _, rfl, streamTelemetry_no_boundary _ _ _⟩

/-- Witness for C7 (amended) at a concrete mid-session tracker hit by a
session-index change. -/
theorem session_restart_single_end_witness :
    midSessionState.inRace = true ∧ midSessionState.wasConnected = true ∧
    midSessionState.currentSessionId = some 1 ∧
    snapIdleRestart.sessionIndex ≠ midSessionState.lastSessionIndex ∧
    ∃ (a : AnalysisPayload) (newSid : ℕ) (rest : List Event),
      (monitorStep okAnalyze true (some snapIdleRestart) true midSessionState
          DB.empty).2.2 =
        Event.raceEnd 1 a :: Event.raceStart newSid :: rest ∧
      ∀ e ∈ rest, isSessionBoundary e = false :=
  ⟨rfl, rfl, rfl, by decide,
   session_restart_single_end okAnalyze snapIdleRestart midSessionState
     DB.empty 1 rfl rfl rfl (Or.inl (by decide))⟩

/-- Witness for C5 on concrete sections (six-sample straight between two
right corners, and the same with a left second corner). -/
theorem merge_corner_lookahead_witness :
    mergeTrackSections [fixSecCornerA, fixSecStraight, fixSecCornerB] =
      [{ fixSecCornerA with
          points := fixSecCornerA.points ++ fixSecStraight.points ++
            fixSecCornerB.points,
          endIdx := fixSecCornerB.endIdx }] ∧
    mergeTrackSections [fixSecCornerA, fixSecStraight, fixSecCornerL] =
      [fixSecCornerA, fixSecStraight, fixSecCornerL] :=
  ⟨merge_corner_lookahead.1 fixSecCornerA fixSecStraight fixSecCornerB
      .right (by decide) (by decide) (by decide) (by decide) (by decide)
      (by decide),
   merge_corner_lookahead.2 fixSecCornerA fixSecStraight fixSecCornerL
      .right .left (by decide) (by decide) (by decide) (by decide)
      (by decide) (by decide) (by decide)⟩

end AssetoCorsa
